import Mathlib

/-!
Verification development for the furniture-placement service
(src/furniture_service.py).  The detection-result normalization and
merge pipeline is shallowly embedded: Python/JSON values become the
inductive type `JVal`, Python dicts become association lists with
Python's insertion-order update semantics, numbers become exact
rationals (the IEEE-double rounding of Python floats is abstracted to
exact arithmetic), and code that can raise an exception returns an
`Option`/`Except` value with `none`/`.error` marking the raised
exception.  Unicode-sensitive Python string primitives
(`str.lower`, `str.strip`) are modelled on their ASCII behaviour,
which is the only behaviour the claims exercise.
-/

namespace Furnish

/-- A Python/JSON value as handled by the service: `None`, booleans,
numbers (Python `int` and `float` merged into exact rationals),
strings, lists, and dicts (association lists in insertion order). -/
inductive JVal : Type where
  | null : JVal
  | bool : Bool → JVal
  | num : ℚ → JVal
  | str : String → JVal
  | arr : List JVal → JVal
  | obj : List (String × JVal) → JVal

/-- Association-list view of a Python dict. -/
abbrev Assoc := List (String × JVal)

/-- Dict lookup (`d.get(k)` without default); keys built by our
operations are unique, so first match suffices. -/
def objGet : Assoc → String → Option JVal
  | [], _ => none
  | (k', v) :: rest, k => if k' = k then some v else objGet rest k

/-- Python dict assignment `d[k] = v`: replaces the value in place if
the key exists, otherwise appends the new key at the end. -/
def dictSet : Assoc → String → JVal → Assoc
  | [], k, v => [(k, v)]
  | (k', v') :: rest, k, v =>
      if k' = k then (k, v) :: rest else (k', v') :: dictSet rest k v

/-- Python `d.setdefault(k, v)`: keeps an existing entry, otherwise
appends `(k, v)` at the end. -/
def dictSetdefault (d : Assoc) (k : String) (v : JVal) : Assoc :=
  match objGet d k with
  | some _ => d
  | none => d ++ [(k, v)]

/-- Python truthiness of a value (`bool(v)`). -/
def pyTruthy : JVal → Bool
  | .null => false
  | .bool b => b
  | .num q => if q = 0 then false else true
  | .str s => if s = "" then false else true
  | .arr l => !l.isEmpty
  | .obj l => !l.isEmpty

/-- Python `a or b`. -/
def pyOr (a b : JVal) : JVal := if pyTruthy a then a else b

/-- ASCII lower-casing of one character, the behaviour of Python
`str.lower` on the ASCII range (the only range the claims use). -/
def lowerChar (c : Char) : Char :=
  if 65 ≤ c.toNat ∧ c.toNat ≤ 90 then Char.ofNat (c.toNat + 32) else c

/-- Model of Python `str.lower` (ASCII behaviour). -/
def pyLower (s : String) : String := String.mk (s.data.map lowerChar)

/-- Characters stripped by Python `str.strip()` (ASCII whitespace). -/
def isSpaceChar (c : Char) : Bool :=
  c = ' ' ∨ c = '\t' ∨ c = '\n' ∨ c = '\r' ∨ c = '\x0b' ∨ c = '\x0c'

/-- Model of Python `str.strip()` (ASCII whitespace behaviour). -/
def pyStrip (s : String) : String :=
  String.mk (((s.data.dropWhile isSpaceChar).reverse.dropWhile isSpaceChar).reverse)

/-- Truncation of a rational toward zero, the behaviour of Python
`int(x)` on a number. -/
def ratTrunc (q : ℚ) : ℤ := if 0 ≤ q then Rat.floor q else Rat.ceil q

/-- Python 3 `round(x)` on a number: round half to even.  The
fractional part `q - floor q` equals `rem / den` with
`rem = num - floor q * den`, so the half-way comparisons are done in
integer arithmetic. -/
def pyRound (q : ℚ) : ℤ :=
  let f := Rat.floor q
  let rem := q.num - f * (q.den : ℤ)
  if 2 * rem < (q.den : ℤ) then f
  else if (q.den : ℤ) < 2 * rem then f + 1
  else if f % 2 = 0 then f else f + 1

/-- Ten to a natural power, as an integer. -/
def pow10 : Nat → ℤ
  | 0 => 1
  | n + 1 => 10 * pow10 n

/-- Digits of a character list interpreted in base 10. -/
def digitsToNat (cs : List Char) : Nat :=
  cs.foldl (fun acc c => acc * 10 + (c.toNat - 48)) 0

/-- Model of Python `int(s)` on a string: optional surrounding
whitespace, optional sign, one or more digits.  (Digit-group
underscores, non-ASCII digits are abstracted away; no claim uses
them.) -/
def intOfString (s : String) : Option ℤ :=
  let cs := (s.data.dropWhile isSpaceChar).reverse.dropWhile isSpaceChar |>.reverse
  let (sign, body) : ℤ × List Char :=
    match cs with
    | c :: rest =>
        if c = '-' then (-1, rest) else if c = '+' then (1, rest) else (1, cs)
    | [] => (1, [])
  if body ≠ [] ∧ body.all Char.isDigit then
    some (sign * (digitsToNat body : ℤ))
  else none

/-- The rational with the given decimal digits before and after the
point: `digits(int ++ frac) / 10 ^ length frac`. -/
def decimalVal (intPart fracPart : List Char) : ℚ :=
  Rat.divInt (digitsToNat (intPart ++ fracPart) : ℤ) (pow10 fracPart.length)

/-- Scale a rational by a signed power of ten. -/
def scalePow10 (q : ℚ) (esign : Bool) (e : Nat) : ℚ :=
  if esign then Rat.divInt (q.num * pow10 e) (q.den : ℤ)
  else Rat.divInt q.num ((q.den : ℤ) * pow10 e)

/-- Parse the digit/point part of a Python float literal:
`digits`, `digits.digits`, `digits.`, or `.digits`. -/
def floatBody (cs : List Char) : Option ℚ :=
  let intPart := cs.takeWhile Char.isDigit
  let rest := cs.dropWhile Char.isDigit
  match rest with
  | [] => if intPart = [] then none else some ((digitsToNat intPart : ℤ) : ℚ)
  | c :: rest2 =>
      if c = '.' then
        let fracPart := rest2.takeWhile Char.isDigit
        let rest3 := rest2.dropWhile Char.isDigit
        if rest3 = [] then
          if intPart = [] ∧ fracPart = [] then none
          else some (decimalVal intPart fracPart)
        else none
      else none

/-- Model of Python `float(s)` on a string: optional surrounding
whitespace, optional sign, a decimal body, optional exponent.  The
special literals `inf`/`nan` (which round/int-convert to exceptions
downstream anyway) are abstracted as coercion failures. -/
def floatOfString (s : String) : Option ℚ :=
  let cs := (s.data.dropWhile isSpaceChar).reverse.dropWhile isSpaceChar |>.reverse
  let (neg, body) : Bool × List Char :=
    match cs with
    | c :: rest =>
        if c = '-' then (true, rest) else if c = '+' then (false, rest) else (false, cs)
    | [] => (false, [])
  let mantLen := (body.takeWhile (fun c => Char.isDigit c ∨ c = '.')).length
  let mant := body.take mantLen
  let expPart := body.drop mantLen
  match floatBody mant with
  | none => none
  | some m =>
      match expPart with
      | [] => some (if neg then -m else m)
      | e :: rest =>
          if e = 'e' ∨ e = 'E' then
            let (eneg, edigits) : Bool × List Char :=
              match rest with
              | c :: r2 =>
                  if c = '-' then (true, r2) else if c = '+' then (false, r2) else (false, rest)
              | [] => (false, [])
            if edigits ≠ [] ∧ edigits.all Char.isDigit then
              let m2 := scalePow10 m (!eneg) (digitsToNat edigits)
              some (if neg then -m2 else m2)
            else none
          else none

/-- Python `float(v)`: numbers pass through, booleans become 0/1,
numeric strings are parsed; everything else raises (`none`). -/
def pyFloat : JVal → Option ℚ
  | .bool b => some (if b then 1 else 0)
  | .num q => some q
  | .str s => floatOfString s
  | _ => none

/-- Python `int(v)`: numbers truncate toward zero, booleans become
0/1, integer-literal strings are parsed; everything else raises
(`none`). -/
def pyInt : JVal → Option ℤ
  | .bool b => some (if b then 1 else 0)
  | .num q => some (ratTrunc q)
  | .str s => intOfString s
  | _ => none

/-- Python `str(v)`.  Exact for strings (identity), `None` and
booleans; the textual rendering of numbers and containers is a simple
stand-in (no claim depends on the rendering of non-string values). -/
def pyStr : JVal → String
  | .null => "None"
  | .bool true => "True"
  | .bool false => "False"
  | .num q => if q.den = 1 then toString q.num else toString q.num ++ "/" ++ toString q.den
  | .str s => s
  | .arr _ => "[...]"
  | .obj _ => "\x7b...\x7d"

/-- Embedding of `clamp_int` (furniture_service.py lines 134-139):
`int(round(float(v)))` with the lower bound substituted on any
coercion failure, then clamped into `[lo, hi]`. -/
def clamp_int (v : JVal) (lo hi : ℤ) : ℤ :=
  let iv : ℤ :=
    match pyFloat v with
    | some q => pyRound q
    | none => lo
  max lo (min hi iv)

/-- Geometry part of one iteration of the `normalize_furniture_boxes`
loop (lines 148-156): clamp the four coordinates, one conditional
reorder pass, then reject still-degenerate boxes (`none`). -/
def sanitizeCoords (kv : Assoc) (W H : ℤ) : Option (ℤ × ℤ × ℤ × ℤ) :=
  let x1 := clamp_int ((objGet kv "x1").getD (.num 0)) 0 (max 0 (W - 1))
  let y1 := clamp_int ((objGet kv "y1").getD (.num 0)) 0 (max 0 (H - 1))
  let x2 := clamp_int ((objGet kv "x2").getD (.num 0)) 0 (max 0 (W - 1))
  let y2 := clamp_int ((objGet kv "y2").getD (.num 0)) 0 (max 0 (H - 1))
  let c := if x2 ≤ x1 ∨ y2 ≤ y1 then
      (min x1 x2, min y1 y2, max x1 x2, max y1 y2)
    else (x1, y1, x2, y2)
  if c.2.2.1 ≤ c.1 ∨ c.2.2.2 ≤ c.2.1 then none else some c

/-- One iteration of the `normalize_furniture_boxes` loop
(lines 147-162).  Outer `none` is a raised exception (the bare
`float(it.get("confidence", 0.0))`); `some none` is a dropped box;
`some (some item)` is an emitted item. -/
def sanitizeItem (it : JVal) (W H : ℤ) : Option (Option JVal) :=
  match it with
  | .obj kv =>
      match sanitizeCoords kv W H with
      | none => some none
      | some (x1, y1, x2, y2) =>
          match pyFloat ((objGet kv "confidence").getD (.num 0)) with
          | none => none
          | some conf =>
              some (some (.obj [("x1", .num x1), ("y1", .num y1),
                ("x2", .num x2), ("y2", .num y2),
                ("type", .str (pyLower (pyStr ((objGet kv "type").getD (.str "unknown"))))),
                ("room", .str (pyLower (pyStr ((objGet kv "room").getD (.str "unknown"))))),
                ("confidence", .num conf)]))
  | _ => none

/-- Run an exception-or-drop step over a list, keeping emitted items;
`none` propagates the first raised exception. -/
def mapMaybeM (f : α → Option (Option β)) : List α → Option (List β)
  | [] => some []
  | a :: as =>
      match f a with
      | none => none
      | some none => mapMaybeM f as
      | some (some b) =>
          match mapMaybeM f as with
          | none => none
          | some bs => some (b :: bs)

/-- Run a fallible step over a list; `none` propagates the first
raised exception. -/
def mapOptM (f : α → Option β) : List α → Option (List β)
  | [] => some []
  | a :: as =>
      match f a with
      | none => none
      | some b =>
          match mapOptM f as with
          | none => none
          | some bs => some (b :: bs)

/-- View of the `furniture` value as the list the loop iterates
over.  (Python iteration over a non-list is modelled as an exception;
`merge_with_baseline`, the only caller, always supplies a list.) -/
def furnList : JVal → Option (List JVal)
  | .arr l => some l
  | _ => none

/-- Embedding of `normalize_furniture_boxes` (lines 141-163).  `none`
is a raised exception. -/
def normalize_furniture_boxes (doc : Assoc) : Option Assoc :=
  (pyInt (pyOr ((objGet doc "Width").getD (.num 0)) (.num 0))).bind fun W =>
    (pyInt (pyOr ((objGet doc "Height").getD (.num 0)) (.num 0))).bind fun H =>
      (furnList ((objGet doc "furniture").getD (.arr []))).bind fun furn =>
        (mapMaybeM (fun it => sanitizeItem it W H) furn).map fun out =>
          dictSet doc "furniture" (.arr out)

/-- Width/Height resolution of `merge_with_baseline` (lines 172-176):
`int(orig.get("Width") or 0)`, same for Height, and the pair is
replaced by the fallback dims when either is zero.  `none` is a
raised exception (non-int-coercible truthy value). -/
def resolveDims (kvs : Assoc) (dims : ℤ × ℤ) : Option (ℤ × ℤ) :=
  match pyInt (pyOr ((objGet kvs "Width").getD .null) (.num 0)) with
  | none => none
  | some W =>
      match pyInt (pyOr ((objGet kvs "Height").getD .null) (.num 0)) with
      | none => none
      | some H => some (if W ≠ 0 ∧ H ≠ 0 then (W, H) else dims)

/-- Per-item coercion of `merge_with_baseline` (lines 188-196).  The
four coordinates and the confidence are bare `float(...)` coercions,
so `none` is a raised exception. -/
def mergeCoerceItem (f : JVal) : Option JVal :=
  match f with
  | .obj kv =>
      match pyFloat ((objGet kv "x1").getD (.num 0)),
            pyFloat ((objGet kv "y1").getD (.num 0)),
            pyFloat ((objGet kv "x2").getD (.num 0)),
            pyFloat ((objGet kv "y2").getD (.num 0)),
            pyFloat ((objGet kv "confidence").getD ((objGet kv "score").getD (.num 0))) with
      | some q1, some q2, some q3, some q4, some conf =>
          some (.obj [("x1", .num (pyRound q1)), ("y1", .num (pyRound q2)),
            ("x2", .num (pyRound q3)), ("y2", .num (pyRound q4)),
            ("type", .str (pyLower (pyStr ((objGet kv "type").getD (.str "unknown"))))),
            ("room", .str (pyLower (pyStr ((objGet kv "room").getD (.str "unknown"))))),
            ("confidence", .num conf)])
      | _, _, _, _, _ => none
  | _ => none

/-- Construction of the enriched dict (lines 178-183 and 197): copy
of the parsed baseline, Width/Height overwritten, `points`,
`classes`, `averageDoor` defaulted when absent, and the coerced
furniture list installed. -/
def buildEnriched (kvs : Assoc) (W H : ℤ) (fixed : List JVal) : Assoc :=
  let e := dictSet kvs "Width" (.num W)
  let e := dictSet e "Height" (.num H)
  let e := dictSetdefault e "points" ((objGet kvs "points").getD (.arr []))
  let e := dictSetdefault e "classes" ((objGet kvs "classes").getD (.arr []))
  let e := dictSetdefault e "averageDoor" ((objGet kvs "averageDoor").getD (.num 0))
  dictSet e "furniture" (.arr fixed)

/-! JSON parsing.  `json_loads` models Python `json.loads` on the
grammar the service exercises: objects, arrays, strings with the
standard escapes, numbers, `true`/`false`/`null`.  (The non-standard
`NaN`/`Infinity` literals and astral-plane surrogate pairs accepted
by Python are abstracted as parse failures; no claim uses them.) -/

/-- JSON whitespace. -/
def isJsonWs (c : Char) : Bool := c = ' ' ∨ c = '\t' ∨ c = '\n' ∨ c = '\r'

/-- Drop leading JSON whitespace. -/
def skipWs : List Char → List Char
  | [] => []
  | c :: cs => if isJsonWs c then skipWs cs else c :: cs

/-- The backtick character (used by the fence-stripping logic). -/
def backtickChar : Char := Char.ofNat 96

/-- The opening-brace character. -/
def lbrace : Char := Char.ofNat 123

/-- The closing-brace character. -/
def rbrace : Char := Char.ofNat 125

/-- Hexadecimal digit test. -/
def isHexChar (c : Char) : Bool :=
  (48 ≤ c.toNat ∧ c.toNat ≤ 57) ∨ (97 ≤ c.toNat ∧ c.toNat ≤ 102) ∨
  (65 ≤ c.toNat ∧ c.toNat ≤ 70)

/-- Value of a hexadecimal digit. -/
def hexVal (c : Char) : Nat :=
  if c.toNat ≤ 57 then c.toNat - 48
  else if 97 ≤ c.toNat then c.toNat - 87 else c.toNat - 55

/-- Decoded character of a one-letter JSON escape. -/
def escChar (e : Char) : Option Char :=
  if e = '"' then some '"'
  else if e = '\\' then some '\\'
  else if e = '/' then some '/'
  else if e = 'b' then some '\x08'
  else if e = 'f' then some '\x0c'
  else if e = 'n' then some '\n'
  else if e = 'r' then some '\r'
  else if e = 't' then some '\t'
  else none

/-- Parse the body of a JSON string after the opening quote; returns
the decoded characters and the rest of the input. -/
def parseStringBody : List Char → Option (List Char × List Char)
  | [] => none
  | c :: cs =>
      if c = '"' then some ([], cs)
      else if c = '\\' then
        match cs with
        | [] => none
        | e :: cs2 =>
            if e = 'u' then
              match cs2 with
              | h1 :: h2 :: h3 :: h4 :: cs3 =>
                  if isHexChar h1 ∧ isHexChar h2 ∧ isHexChar h3 ∧ isHexChar h4 then
                    let n := ((hexVal h1 * 16 + hexVal h2) * 16 + hexVal h3) * 16 + hexVal h4
                    if n < 55296 then
                      match parseStringBody cs3 with
                      | none => none
                      | some (ds, rest2) => some (Char.ofNat n :: ds, rest2)
                    else none
                  else none
              | _ => none
            else
              match escChar e with
              | none => none
              | some d =>
                  match parseStringBody cs2 with
                  | none => none
                  | some (ds, rest2) => some (d :: ds, rest2)
      else if c.toNat < 32 then none
      else
        match parseStringBody cs with
        | none => none
        | some (ds, rest) => some (c :: ds, rest)

/-- Parse a JSON number (after an optional leading minus has been
detected by the caller): strict JSON grammar with no leading zeros. -/
def parseNumberBody (cs : List Char) : Option (ℚ × List Char) :=
  let intPart := cs.takeWhile Char.isDigit
  let rest := cs.dropWhile Char.isDigit
  let okInt : Bool :=
    match intPart with
    | [] => false
    | [_] => true
    | d :: _ => d ≠ '0'
  if okInt then
    let (v1, rest1) : ℚ × List Char :=
      match rest with
      | '.' :: r2 =>
          let fracPart := r2.takeWhile Char.isDigit
          let r3 := r2.dropWhile Char.isDigit
          if fracPart = [] then (decimalVal intPart [], rest)
          else (decimalVal intPart fracPart, r3)
      | _ => (decimalVal intPart [], rest)
    let fracOk : Bool :=
      match rest with
      | '.' :: r2 => r2.takeWhile Char.isDigit ≠ []
      | _ => true
    if fracOk then
      match rest1 with
      | e :: r2 =>
          if e = 'e' ∨ e = 'E' then
            let (eneg, edigits, r3) : Bool × List Char × List Char :=
              match r2 with
              | s :: r3 =>
                  if s = '-' then (true, r3.takeWhile Char.isDigit, r3.dropWhile Char.isDigit)
                  else if s = '+' then (false, r3.takeWhile Char.isDigit, r3.dropWhile Char.isDigit)
                  else (false, r2.takeWhile Char.isDigit, r2.dropWhile Char.isDigit)
              | [] => (false, [], [])
            if edigits = [] then none
            else some (scalePow10 v1 (!eneg) (digitsToNat edigits), r3)
          else some (v1, rest1)
      | [] => some (v1, rest1)
    else none
  else none

mutual

/-- Parse one JSON value (fuel-indexed recursive descent). -/
def parseValue : Nat → List Char → Option (JVal × List Char)
  | 0, _ => none
  | fuel + 1, cs =>
      match skipWs cs with
      | [] => none
      | c :: rest =>
          if c = lbrace then parseObjBody fuel rest true
          else if c = '[' then parseArrBody fuel rest true
          else if c = '"' then
            match parseStringBody rest with
            | none => none
            | some (ds, rest2) => some (.str (String.mk ds), rest2)
          else if c = 't' then
            match rest with
            | 'r' :: 'u' :: 'e' :: rest2 => some (.bool true, rest2)
            | _ => none
          else if c = 'f' then
            match rest with
            | 'a' :: 'l' :: 's' :: 'e' :: rest2 => some (.bool false, rest2)
            | _ => none
          else if c = 'n' then
            match rest with
            | 'u' :: 'l' :: 'l' :: rest2 => some (.null, rest2)
            | _ => none
          else if c = '-' then
            match parseNumberBody rest with
            | none => none
            | some (q, rest2) => some (.num (-q), rest2)
          else
            match parseNumberBody (c :: rest) with
            | none => none
            | some (q, rest2) => some (.num q, rest2)

/-- Parse the members of a JSON object after the opening brace;
duplicate keys follow the Python dict rule (first position, last
value). -/
def parseObjBody : Nat → List Char → Bool → Option (JVal × List Char)
  | 0, _, _ => none
  | fuel + 1, cs, isFirst =>
      match skipWs cs with
      | [] => none
      | c :: rest =>
          if c = rbrace ∧ isFirst then some (.obj [], rest)
          else
            match parseObjLoop fuel (c :: rest) [] with
            | none => none
            | some (kvs, rest2) => some (.obj kvs, rest2)

/-- Member list of a JSON object (key, colon, value, then comma or
closing brace). -/
def parseObjLoop : Nat → List Char → Assoc → Option (Assoc × List Char)
  | 0, _, _ => none
  | fuel + 1, cs, acc =>
      match skipWs cs with
      | '"' :: rest =>
          match parseStringBody rest with
          | none => none
          | some (ks, rest2) =>
              match skipWs rest2 with
              | ':' :: rest3 =>
                  match parseValue fuel rest3 with
                  | none => none
                  | some (v, rest4) =>
                      let acc2 := dictSet acc (String.mk ks) v
                      match skipWs rest4 with
                      | ',' :: rest5 => parseObjLoop fuel rest5 acc2
                      | c :: rest5 => if c = rbrace then some (acc2, rest5) else none
                      | [] => none
              | _ => none
      | _ => none

/-- Parse the elements of a JSON array after the opening bracket. -/
def parseArrBody : Nat → List Char → Bool → Option (JVal × List Char)
  | 0, _, _ => none
  | fuel + 1, cs, isFirst =>
      match skipWs cs with
      | [] => none
      | ']' :: rest => if isFirst then some (.arr [], rest) else none
      | cs2 =>
          match parseArrLoop fuel cs2 with
          | none => none
          | some (vs, rest2) => some (.arr vs, rest2)

/-- Element list of a JSON array (value, then comma or closing
bracket). -/
def parseArrLoop : Nat → List Char → Option (List JVal × List Char)
  | 0, _ => none
  | fuel + 1, cs =>
      match parseValue fuel cs with
      | none => none
      | some (v, rest) =>
          match skipWs rest with
          | ',' :: rest2 =>
              match parseArrLoop fuel rest2 with
              | none => none
              | some (vs, rest3) => some (v :: vs, rest3)
          | ']' :: rest2 => some ([v], rest2)
          | _ => none

end

/-- Model of Python `json.loads`: parse one value surrounded by
optional whitespace; anything left over is a parse failure. -/
def json_loads (s : String) : Option JVal :=
  match parseValue (s.data.length + 1) s.data with
  | none => none
  | some (v, rest) => if (skipWs rest).isEmpty then some v else none

/-- The parsed baseline as the dict `orig` (lines 167-170): parse
failure falls back to the empty object, and a parse result that is
not an object raises (`none`) at the first `orig.get`. -/
def origAssoc (raw_json : String) : Option Assoc :=
  match (json_loads raw_json).getD (.obj []) with
  | .obj kvs => some kvs
  | _ => none

/-- Embedding of `merge_with_baseline` (lines 165-200): parse the
baseline fail-open, resolve dims, copy baseline fields with defaults,
coerce the furniture items, sanitize the boxes, stamp the schema
version.  `none` is a raised exception. -/
def merge_with_baseline (raw_json : String) (furniture : List JVal) (dims : ℤ × ℤ) :
    Option Assoc :=
  (origAssoc raw_json).bind fun kvs =>
    (resolveDims kvs dims).bind fun WH =>
      (mapOptM mergeCoerceItem furniture).bind fun fixed =>
        (normalize_furniture_boxes (buildEnriched kvs WH.1 WH.2 fixed)).map fun e =>
          dictSetdefault e "schema_version" (.str "furnish.v1")

/-! Label normalizer (lines 239-260). -/

/-- Embedding of `FURNITURE_WHITELIST`. -/
def FURNITURE_WHITELIST : List String :=
  ["bed", "sofa", "couch", "armchair", "chair", "dining table", "table", "tv",
   "tv stand", "refrigerator", "fridge", "microwave", "oven", "stove", "stove/cooktop",
   "sink", "toilet", "shower", "bathtub", "bookshelf", "desk", "bench",
   "wardrobe", "closet", "dresser", "nightstand", "island", "vanity",
   "washing machine", "dryer", "rug", "side table", "shoe rack", "radiator"]

/-- Embedding of `SYNONYM_MAP` (insertion order). -/
def SYNONYM_MAP : List (String × String) :=
  [("couch", "sofa"), ("refrigerator", "fridge"), ("stove", "stove/cooktop"),
   ("dining table", "table"), ("tvmonitor", "tv")]

/-- Lookup in the synonym table (`SYNONYM_MAP.get(lab)`). -/
def synGet : List (String × String) → String → Option String
  | [], _ => none
  | (k, v) :: rest, lab => if k = lab then some v else synGet rest lab

/-- Embedding of `_normalize_label` (lines 254-256): `(raw or "")`
guards a null label, then strip, lower-case, and synonym-substitute.
`none` models Python `None`. -/
def normalize_label (raw : Option String) : String :=
  let r := match raw with
    | none => ""
    | some s => if s = "" then "" else s
  let lab := pyLower (pyStrip r)
  (synGet SYNONYM_MAP lab).getD lab

/-- Embedding of `_is_furniture` (lines 258-260): lower-case the
label, then test whitelist membership or synonym-key membership. -/
def is_furniture (label : String) : Bool :=
  let lab := pyLower label
  FURNITURE_WHITELIST.contains lab || (synGet SYNONYM_MAP lab).isSome

/-! Reply parser (lines 119-132). -/

/-- Fence stripping of `clean_and_load` (lines 121-123): strip
whitespace; if the text starts with three backticks, remove them and
an optional language tag plus one newline, strip all trailing
backticks, and strip whitespace again. -/
def stripFence (txt : List Char) : List Char :=
  match txt with
  | a :: b :: c :: rest =>
      if a = backtickChar ∧ b = backtickChar ∧ c = backtickChar then
        let t1 := rest.dropWhile Char.isAlpha
        let t2 := match t1 with
          | '\n' :: t => t
          | t => t
        let t3 := (t2.reverse.dropWhile (fun ch => ch = backtickChar)).reverse
        ((t3.dropWhile isSpaceChar).reverse.dropWhile isSpaceChar).reverse
      else txt
  | _ => txt

/-- Embedding of `clean_and_load` (lines 119-132).  The first parse
attempt is returned as-is on success (even when the result is a bare
JSON string).  On failure the code re-parses the same text: that
identical attempt fails identically, and a hypothetical non-string
success would make the inner `json.loads` raise; every such path ends
in the `ValueError` (`.error`). -/
def clean_and_load (raw : String) : Except String JVal :=
  let txt := String.mk (stripFence (((raw.data.dropWhile isSpaceChar).reverse.dropWhile isSpaceChar).reverse))
  match json_loads txt with
  | some v => .ok v
  | none =>
      match json_loads txt with
      | some (.str s) =>
          match json_loads s with
          | some v => .ok v
          | none => .error "Could not parse JSON"
      | _ => .error "Could not parse JSON"

/-! Basic lemmas about the dict operations and numeric coercions. -/

theorem objGet_dictSet_self (d : Assoc) (k : String) (v : JVal) :
    objGet (dictSet d k v) k = some v := by
  induction d with
  | nil => simp [dictSet, objGet]
  | cons kv rest ih =>
      by_cases h : kv.1 = k
      · simp [dictSet, h, objGet]
      · simp [dictSet, h, objGet, ih]

theorem objGet_dictSet_ne (d : Assoc) (k k' : String) (v : JVal) (h : k' ≠ k) :
    objGet (dictSet d k' v) k = objGet d k := by
  induction d with
  | nil => simp [dictSet, objGet, h]
  | cons kv rest ih =>
      by_cases h2 : kv.1 = k'
      · simp [dictSet, h2, objGet, h]
      · simp only [dictSet, h2, if_false, objGet]
        by_cases h3 : kv.1 = k
        · simp [h3]
        · simp [h3, ih]

theorem objGet_append_ne (d : Assoc) (k k' : String) (v : JVal) (h : k' ≠ k) :
    objGet (d ++ [(k', v)]) k = objGet d k := by
  induction d with
  | nil => simp [objGet, h]
  | cons kv rest ih =>
      by_cases h2 : kv.1 = k
      · simp [objGet, h2]
      · simp [objGet, h2, ih]

theorem objGet_dictSetdefault_ne (d : Assoc) (k k' : String) (v : JVal) (h : k' ≠ k) :
    objGet (dictSetdefault d k' v) k = objGet d k := by
  unfold dictSetdefault
  cases objGet d k' with
  | none => exact objGet_append_ne d k k' v h
  | some w => rfl

theorem objGet_dictSetdefault_self (d : Assoc) (k : String) (v : JVal) :
    objGet (dictSetdefault d k v) k = some ((objGet d k).getD v) := by
  unfold dictSetdefault
  cases h : objGet d k with
  | some w => simp [h]
  | none =>
      simp only [h, Option.getD_none]
      induction d with
      | nil => simp [objGet]
      | cons kv rest ih =>
          by_cases h2 : kv.1 = k
          · simp [objGet, h2] at h
          · simp only [objGet, h2, if_false] at h ⊢
            exact ih h

theorem pyRound_intCast (n : ℤ) : pyRound ((n : ℤ) : ℚ) = n := by
  unfold pyRound Rat.floor
  simp [Rat.den_intCast, Rat.num_intCast]

theorem ratTrunc_intCast (n : ℤ) : ratTrunc ((n : ℤ) : ℚ) = n := by
  unfold ratTrunc Rat.floor Rat.ceil
  split <;> simp [Rat.den_intCast, Rat.num_intCast]

theorem pyFloat_num (q : ℚ) : pyFloat (.num q) = some q := rfl

theorem pyInt_num (q : ℚ) : pyInt (.num q) = some (ratTrunc q) := rfl

/-- Extraction of a stored integer dimension, as done at the top of
`normalize_furniture_boxes`: `int(doc.get("Width", 0) or 0)` on a
dict whose `Width` is the integer `n` yields `n` again. -/
theorem pyInt_pyOr_num_int (n : ℤ) :
    pyInt (pyOr (.num ((n : ℤ) : ℚ)) (.num 0)) = some n := by
  unfold pyOr pyTruthy
  by_cases h : ((n : ℤ) : ℚ) = 0
  · have hn : n = 0 := by exact_mod_cast h
    simp [h, hn, pyInt, ratTrunc, Rat.floor]
  · simp only [h, if_false, if_true]
    simp [pyInt, ratTrunc_intCast]

theorem mapMaybeM_mem {f : α → Option (Option β)} {l : List α} {out : List β}
    (h : mapMaybeM f l = some out) : ∀ b ∈ out, ∃ a ∈ l, f a = some (some b) := by
  induction l generalizing out with
  | nil =>
      simp [mapMaybeM] at h
      subst h; simp
  | cons a as ih =>
      unfold mapMaybeM at h
      cases hfa : f a with
      | none => simp [hfa] at h
      | some ob =>
          cases ob with
          | none =>
              simp only [hfa] at h
              intro b hb
              obtain ⟨a2, ha2, hfa2⟩ := ih h b hb
              exact ⟨a2, by simp [ha2], hfa2⟩
          | some b0 =>
              simp only [hfa] at h
              cases hrest : mapMaybeM f as with
              | none => simp [hrest] at h
              | some bs =>
                  simp only [hrest] at h
                  cases h
                  intro b hb
                  rcases List.mem_cons.mp hb with hb | hb
                  · exact ⟨a, by simp, by rw [hfa, hb]⟩
                  · obtain ⟨a2, ha2, hfa2⟩ := ih hrest b hb
                    exact ⟨a2, by simp [ha2], hfa2⟩

theorem mapMaybeM_id {f : α → Option (Option α)} {l : List α}
    (h : ∀ a ∈ l, f a = some (some a)) : mapMaybeM f l = some l := by
  induction l with
  | nil => rfl
  | cons a as ih =>
      unfold mapMaybeM
      rw [h a (by simp), ih (fun a2 ha2 => h a2 (by simp [ha2]))]

theorem mapOptM_id {f : α → Option α} {l : List α}
    (h : ∀ a ∈ l, f a = some a) : mapOptM f l = some l := by
  induction l with
  | nil => rfl
  | cons a as ih =>
      unfold mapOptM
      rw [h a (by simp), ih (fun a2 ha2 => h a2 (by simp [ha2]))]

theorem mapOptM_isSome {f : α → Option β} {l : List α}
    (h : ∀ a ∈ l, (f a).isSome) : ∃ out, mapOptM f l = some out := by
  induction l with
  | nil => exact ⟨[], rfl⟩
  | cons a as ih =>
      obtain ⟨b, hb⟩ := Option.isSome_iff_exists.mp (h a (by simp))
      obtain ⟨bs, hbs⟩ := ih (fun a2 ha2 => h a2 (by simp [ha2]))
      exact ⟨b :: bs, by unfold mapOptM; rw [hb, hbs]⟩

/-! Bounds of the box sanitizer. -/

theorem clamp_int_mem (v : JVal) (lo hi : ℤ) (h : lo ≤ hi) :
    lo ≤ clamp_int v lo hi ∧ clamp_int v lo hi ≤ hi := by
  unfold clamp_int
  constructor
  · exact le_max_left _ _
  · exact max_le h (min_le_left _ _)

theorem sanitizeCoords_bounds {kv : Assoc} {W H x1 y1 x2 y2 : ℤ}
    (h : sanitizeCoords kv W H = some (x1, y1, x2, y2)) :
    0 ≤ x1 ∧ x1 < x2 ∧ x2 ≤ max 0 (W - 1) ∧
    0 ≤ y1 ∧ y1 < y2 ∧ y2 ≤ max 0 (H - 1) := by
  have hW : (0 : ℤ) ≤ max 0 (W - 1) := le_max_left _ _
  have hH : (0 : ℤ) ≤ max 0 (H - 1) := le_max_left _ _
  obtain ⟨ha1, ha2⟩ := clamp_int_mem ((objGet kv "x1").getD (.num 0)) 0 (max 0 (W - 1)) hW
  obtain ⟨hb1, hb2⟩ := clamp_int_mem ((objGet kv "x2").getD (.num 0)) 0 (max 0 (W - 1)) hW
  obtain ⟨hc1, hc2⟩ := clamp_int_mem ((objGet kv "y1").getD (.num 0)) 0 (max 0 (H - 1)) hH
  obtain ⟨hd1, hd2⟩ := clamp_int_mem ((objGet kv "y2").getD (.num 0)) 0 (max 0 (H - 1)) hH
  simp only [sanitizeCoords] at h
  set a1 := clamp_int ((objGet kv "x1").getD (.num 0)) 0 (max 0 (W - 1)) with ha1d
  set c1 := clamp_int ((objGet kv "y1").getD (.num 0)) 0 (max 0 (H - 1)) with hc1d
  set b1 := clamp_int ((objGet kv "x2").getD (.num 0)) 0 (max 0 (W - 1)) with hb1d
  set d1 := clamp_int ((objGet kv "y2").getD (.num 0)) 0 (max 0 (H - 1)) with hd1d
  by_cases hre : b1 ≤ a1 ∨ d1 ≤ c1
  · rw [if_pos hre] at h
    split at h
    · exact absurd h (by simp)
    · rename_i hguard
      rw [Option.some_inj, Prod.mk.injEq, Prod.mk.injEq, Prod.mk.injEq] at h
      obtain ⟨e1, e2, e3, e4⟩ := h
      dsimp only at hguard
      push_neg at hguard
      refine ⟨?_, ?_, ?_, ?_, ?_, ?_⟩ <;>
        simp only [← e1, ← e2, ← e3, ← e4]
      · exact le_min ha1 hb1
      · exact hguard.1
      · exact max_le ha2 hb2
      · exact le_min hc1 hd1
      · exact hguard.2
      · exact max_le hc2 hd2
  · rw [if_neg hre] at h
    split at h
    · exact absurd h (by simp)
    · rename_i hguard
      rw [Option.some_inj, Prod.mk.injEq, Prod.mk.injEq, Prod.mk.injEq] at h
      obtain ⟨e1, e2, e3, e4⟩ := h
      dsimp only at hguard
      push_neg at hguard
      refine ⟨?_, ?_, ?_, ?_, ?_, ?_⟩ <;>
        simp only [← e1, ← e2, ← e3, ← e4]
      · exact ha1
      · exact hguard.1
      · exact hb2
      · exact hc1
      · exact hguard.2
      · exact hd2

/-! Getter lemmas for the enriched document. -/

theorem objGet_buildEnriched_Width (kvs : Assoc) (W H : ℤ) (fixed : List JVal) :
    objGet (buildEnriched kvs W H fixed) "Width" = some (.num W) := by
  unfold buildEnriched
  rw [objGet_dictSet_ne _ _ _ _ (by decide), objGet_dictSetdefault_ne _ _ _ _ (by decide),
    objGet_dictSetdefault_ne _ _ _ _ (by decide), objGet_dictSetdefault_ne _ _ _ _ (by decide),
    objGet_dictSet_ne _ _ _ _ (by decide), objGet_dictSet_self]

theorem objGet_buildEnriched_Height (kvs : Assoc) (W H : ℤ) (fixed : List JVal) :
    objGet (buildEnriched kvs W H fixed) "Height" = some (.num H) := by
  unfold buildEnriched
  rw [objGet_dictSet_ne _ _ _ _ (by decide), objGet_dictSetdefault_ne _ _ _ _ (by decide),
    objGet_dictSetdefault_ne _ _ _ _ (by decide), objGet_dictSetdefault_ne _ _ _ _ (by decide),
    objGet_dictSet_self]

theorem objGet_buildEnriched_furniture (kvs : Assoc) (W H : ℤ) (fixed : List JVal) :
    objGet (buildEnriched kvs W H fixed) "furniture" = some (.arr fixed) := by
  unfold buildEnriched
  rw [objGet_dictSet_self]

/-- Evaluation of `normalize_furniture_boxes` on the enriched
document built by the merger. -/
theorem normalize_buildEnriched (kvs : Assoc) (W H : ℤ) (fixed : List JVal) :
    normalize_furniture_boxes (buildEnriched kvs W H fixed) =
      (mapMaybeM (fun it => sanitizeItem it W H) fixed).map
        (fun out => dictSet (buildEnriched kvs W H fixed) "furniture" (.arr out)) := by
  unfold normalize_furniture_boxes
  rw [objGet_buildEnriched_Width, objGet_buildEnriched_Height, objGet_buildEnriched_furniture]
  simp only [Option.getD_some, pyInt_pyOr_num_int, Option.some_bind, furnList]

/-- Inversion of a successful merge into its pipeline stages. -/
theorem merge_inv {raw : String} {furn : List JVal} {dims : ℤ × ℤ} {d : Assoc}
    (h : merge_with_baseline raw furn dims = some d) :
    ∃ kvs W H fixed out,
      origAssoc raw = some kvs ∧
      resolveDims kvs dims = some (W, H) ∧
      mapOptM mergeCoerceItem furn = some fixed ∧
      mapMaybeM (fun it => sanitizeItem it W H) fixed = some out ∧
      d = dictSetdefault (dictSet (buildEnriched kvs W H fixed) "furniture" (.arr out))
            "schema_version" (.str "furnish.v1") := by
  unfold merge_with_baseline at h
  rw [Option.bind_eq_some] at h
  obtain ⟨kvs, hkvs, h⟩ := h
  rw [Option.bind_eq_some] at h
  obtain ⟨⟨W, H⟩, hdims, h⟩ := h
  rw [Option.bind_eq_some] at h
  obtain ⟨fixed, hfix, h⟩ := h
  simp only at h
  rw [normalize_buildEnriched, Option.map_eq_some'] at h
  obtain ⟨e, he, hd⟩ := h
  rw [Option.map_eq_some'] at he
  obtain ⟨out, hout, he2⟩ := he
  exact ⟨kvs, W, H, fixed, out, hkvs, hdims, hfix, hout, by rw [← hd, ← he2]⟩

/-- Forward composition of the merge pipeline stages. -/
theorem merge_eq_some {raw : String} {furn : List JVal} {dims : ℤ × ℤ}
    {kvs : Assoc} {W H : ℤ} {fixed : List JVal} {out : List JVal}
    (h1 : origAssoc raw = some kvs) (h2 : resolveDims kvs dims = some (W, H))
    (h3 : mapOptM mergeCoerceItem furn = some fixed)
    (h4 : mapMaybeM (fun it => sanitizeItem it W H) fixed = some out) :
    merge_with_baseline raw furn dims =
      some (dictSetdefault (dictSet (buildEnriched kvs W H fixed) "furniture" (.arr out))
        "schema_version" (.str "furnish.v1")) := by
  unfold merge_with_baseline
  rw [h1, Option.some_bind, h2, Option.some_bind, h3, Option.some_bind]
  simp only
  rw [normalize_buildEnriched, h4]
  rfl

/-! Lower-casing is idempotent. -/

theorem char_toNat_ofNat_valid {n : Nat} (h : n.isValidChar) :
    (Char.ofNat n).toNat = n := by
  rw [Char.ofNat, dif_pos h]
  rfl

theorem lowerChar_idem (c : Char) : lowerChar (lowerChar c) = lowerChar c := by
  unfold lowerChar
  by_cases h : 65 ≤ c.toNat ∧ c.toNat ≤ 90
  · rw [if_pos h]
    have hv : (c.toNat + 32).isValidChar := Or.inl (by omega)
    have ht : (Char.ofNat (c.toNat + 32)).toNat = c.toNat + 32 :=
      char_toNat_ofNat_valid hv
    rw [if_neg (by rw [ht]; omega)]
  · rw [if_neg h, if_neg h]

theorem pyLower_idem (s : String) : pyLower (pyLower s) = pyLower s := by
  unfold pyLower
  simp only [List.map_map]
  congr 1
  exact List.map_congr_left (fun c _ => lowerChar_idem c)

/-! Shape of the items emitted by the box sanitizer. -/

/-- Shape invariant of every element of a normalized `furniture`
array for resolved dimensions `W`, `H`. -/
def IsOutItem (W H : ℤ) (v : JVal) : Prop :=
  ∃ (x1 y1 x2 y2 : ℤ) (t r : String) (c : ℚ),
    v = .obj [("x1", .num (x1 : ℚ)), ("y1", .num (y1 : ℚ)),
      ("x2", .num (x2 : ℚ)), ("y2", .num (y2 : ℚ)),
      ("type", .str t), ("room", .str r), ("confidence", .num c)] ∧
    0 ≤ x1 ∧ x1 < x2 ∧ x2 ≤ max 0 (W - 1) ∧
    0 ≤ y1 ∧ y1 < y2 ∧ y2 ≤ max 0 (H - 1) ∧
    pyLower t = t ∧ pyLower r = r

/-- Inversion of an emitted sanitizer item. -/
theorem sanitizeItem_some {it : JVal} {W H : ℤ} {b : JVal}
    (h : sanitizeItem it W H = some (some b)) :
    ∃ kv x1 y1 x2 y2 conf, it = .obj kv ∧
      sanitizeCoords kv W H = some (x1, y1, x2, y2) ∧
      pyFloat ((objGet kv "confidence").getD (.num 0)) = some conf ∧
      b = .obj [("x1", .num (x1 : ℚ)), ("y1", .num (y1 : ℚ)),
        ("x2", .num (x2 : ℚ)), ("y2", .num (y2 : ℚ)),
        ("type", .str (pyLower (pyStr ((objGet kv "type").getD (.str "unknown"))))),
        ("room", .str (pyLower (pyStr ((objGet kv "room").getD (.str "unknown"))))),
        ("confidence", .num conf)] := by
  cases it with
  | obj kv =>
      simp only [sanitizeItem] at h
      cases hsc : sanitizeCoords kv W H with
      | none => rw [hsc] at h; exact absurd h (by simp)
      | some c4 =>
          obtain ⟨x1, y1, x2, y2⟩ := c4
          rw [hsc] at h
          cases hcf : pyFloat ((objGet kv "confidence").getD (.num 0)) with
          | none => rw [hcf] at h; exact absurd h (by simp)
          | some conf =>
              rw [hcf] at h
              simp only [Option.some_inj] at h
              exact ⟨kv, x1, y1, x2, y2, conf, rfl, hsc, hcf, h.symm⟩
  | null => exact absurd h (by simp [sanitizeItem])
  | bool b2 => exact absurd h (by simp [sanitizeItem])
  | num q => exact absurd h (by simp [sanitizeItem])
  | str s => exact absurd h (by simp [sanitizeItem])
  | arr l => exact absurd h (by simp [sanitizeItem])

/-- Every item the sanitizer emits satisfies the shape invariant. -/
theorem sanitizeItem_out {it : JVal} {W H : ℤ} {b : JVal}
    (h : sanitizeItem it W H = some (some b)) : IsOutItem W H b := by
  obtain ⟨kv, x1, y1, x2, y2, conf, _, hsc, _, hb⟩ := sanitizeItem_some h
  obtain ⟨h1, h2, h3, h4, h5, h6⟩ := sanitizeCoords_bounds hsc
  exact ⟨x1, y1, x2, y2, _, _, conf, hb, h1, h2, h3, h4, h5, h6,
    pyLower_idem _, pyLower_idem _⟩

/-- Clamping an in-range integer is the identity. -/
theorem clamp_int_id {x lo hi : ℤ} (h1 : lo ≤ x) (h2 : x ≤ hi) :
    clamp_int (.num (x : ℚ)) lo hi = x := by
  unfold clamp_int
  simp only [pyFloat, pyRound_intCast]
  rw [min_eq_right h2, max_eq_right h1]

/-- Re-coercing an already-normalized item in the merge loop is the
identity. -/
theorem mergeCoerceItem_id {W H : ℤ} {b : JVal} (h : IsOutItem W H b) :
    mergeCoerceItem b = some b := by
  obtain ⟨x1, y1, x2, y2, t, r, c, hb, _, _, _, _, _, _, ht, hr⟩ := h
  subst hb
  have hgx1 : objGet [("x1", JVal.num (x1 : ℚ)), ("y1", .num (y1 : ℚ)),
      ("x2", .num (x2 : ℚ)), ("y2", .num (y2 : ℚ)), ("type", .str t), ("room", .str r),
      ("confidence", .num c)] "x1" = some (.num (x1 : ℚ)) := rfl
  have hgy1 : objGet [("x1", JVal.num (x1 : ℚ)), ("y1", .num (y1 : ℚ)),
      ("x2", .num (x2 : ℚ)), ("y2", .num (y2 : ℚ)), ("type", .str t), ("room", .str r),
      ("confidence", .num c)] "y1" = some (.num (y1 : ℚ)) := rfl
  have hgx2 : objGet [("x1", JVal.num (x1 : ℚ)), ("y1", .num (y1 : ℚ)),
      ("x2", .num (x2 : ℚ)), ("y2", .num (y2 : ℚ)), ("type", .str t), ("room", .str r),
      ("confidence", .num c)] "x2" = some (.num (x2 : ℚ)) := rfl
  have hgy2 : objGet [("x1", JVal.num (x1 : ℚ)), ("y1", .num (y1 : ℚ)),
      ("x2", .num (x2 : ℚ)), ("y2", .num (y2 : ℚ)), ("type", .str t), ("room", .str r),
      ("confidence", .num c)] "y2" = some (.num (y2 : ℚ)) := rfl
  have hgt : objGet [("x1", JVal.num (x1 : ℚ)), ("y1", .num (y1 : ℚ)),
      ("x2", .num (x2 : ℚ)), ("y2", .num (y2 : ℚ)), ("type", .str t), ("room", .str r),
      ("confidence", .num c)] "type" = some (.str t) := rfl
  have hgr : objGet [("x1", JVal.num (x1 : ℚ)), ("y1", .num (y1 : ℚ)),
      ("x2", .num (x2 : ℚ)), ("y2", .num (y2 : ℚ)), ("type", .str t), ("room", .str r),
      ("confidence", .num c)] "room" = some (.str r) := rfl
  have hgc : objGet [("x1", JVal.num (x1 : ℚ)), ("y1", .num (y1 : ℚ)),
      ("x2", .num (x2 : ℚ)), ("y2", .num (y2 : ℚ)), ("type", .str t), ("room", .str r),
      ("confidence", .num c)] "confidence" = some (.num c) := rfl
  simp only [mergeCoerceItem, hgx1, hgy1, hgx2, hgy2, hgt, hgr, hgc, Option.getD_some,
    pyFloat, pyStr, pyRound_intCast, ht, hr]

/-- Re-sanitizing an already-normalized item is the identity. -/
theorem sanitizeItem_id {W H : ℤ} {b : JVal} (h : IsOutItem W H b) :
    sanitizeItem b W H = some (some b) := by
  obtain ⟨x1, y1, x2, y2, t, r, c, hb, h1, h2, h3, h4, h5, h6, ht, hr⟩ := h
  have hx1 : x1 ≤ max 0 (W - 1) := le_trans (le_of_lt h2) h3
  have hy1 : y1 ≤ max 0 (H - 1) := le_trans (le_of_lt h5) h6
  have hx2 : (0 : ℤ) ≤ x2 := le_trans h1 (le_of_lt h2)
  have hy2 : (0 : ℤ) ≤ y2 := le_trans h4 (le_of_lt h5)
  subst hb
  have hgx1 : objGet [("x1", JVal.num (x1 : ℚ)), ("y1", .num (y1 : ℚ)),
      ("x2", .num (x2 : ℚ)), ("y2", .num (y2 : ℚ)), ("type", .str t), ("room", .str r),
      ("confidence", .num c)] "x1" = some (.num (x1 : ℚ)) := rfl
  have hgy1 : objGet [("x1", JVal.num (x1 : ℚ)), ("y1", .num (y1 : ℚ)),
      ("x2", .num (x2 : ℚ)), ("y2", .num (y2 : ℚ)), ("type", .str t), ("room", .str r),
      ("confidence", .num c)] "y1" = some (.num (y1 : ℚ)) := rfl
  have hgx2 : objGet [("x1", JVal.num (x1 : ℚ)), ("y1", .num (y1 : ℚ)),
      ("x2", .num (x2 : ℚ)), ("y2", .num (y2 : ℚ)), ("type", .str t), ("room", .str r),
      ("confidence", .num c)] "x2" = some (.num (x2 : ℚ)) := rfl
  have hgy2 : objGet [("x1", JVal.num (x1 : ℚ)), ("y1", .num (y1 : ℚ)),
      ("x2", .num (x2 : ℚ)), ("y2", .num (y2 : ℚ)), ("type", .str t), ("room", .str r),
      ("confidence", .num c)] "y2" = some (.num (y2 : ℚ)) := rfl
  have hgt : objGet [("x1", JVal.num (x1 : ℚ)), ("y1", .num (y1 : ℚ)),
      ("x2", .num (x2 : ℚ)), ("y2", .num (y2 : ℚ)), ("type", .str t), ("room", .str r),
      ("confidence", .num c)] "type" = some (.str t) := rfl
  have hgr : objGet [("x1", JVal.num (x1 : ℚ)), ("y1", .num (y1 : ℚ)),
      ("x2", .num (x2 : ℚ)), ("y2", .num (y2 : ℚ)), ("type", .str t), ("room", .str r),
      ("confidence", .num c)] "room" = some (.str r) := rfl
  have hgc : objGet [("x1", JVal.num (x1 : ℚ)), ("y1", .num (y1 : ℚ)),
      ("x2", .num (x2 : ℚ)), ("y2", .num (y2 : ℚ)), ("type", .str t), ("room", .str r),
      ("confidence", .num c)] "confidence" = some (.num c) := rfl
  have hcoords : sanitizeCoords [("x1", .num (x1 : ℚ)), ("y1", .num (y1 : ℚ)),
      ("x2", .num (x2 : ℚ)), ("y2", .num (y2 : ℚ)),
      ("type", .str t), ("room", .str r), ("confidence", .num c)] W H =
      some (x1, y1, x2, y2) := by
    simp only [sanitizeCoords, hgx1, hgy1, hgx2, hgy2, Option.getD_some]
    rw [clamp_int_id h1 hx1, clamp_int_id h4 hy1, clamp_int_id hx2 h3,
      clamp_int_id hy2 h6]
    have hre : ¬(x2 ≤ x1 ∨ y2 ≤ y1) := by push_neg; exact ⟨h2, h5⟩
    rw [if_neg hre]
    dsimp only
    rw [if_neg hre]
  simp only [sanitizeItem, hcoords, hgt, hgr, hgc, Option.getD_some, pyFloat, pyStr, ht, hr]

/-- Field access on an object value. -/
def objGetV : JVal → String → Option JVal
  | .obj kv, k => objGet kv k
  | _, _ => none

/-- Inversion of a successful merge-loop coercion. -/
theorem mergeCoerceItem_some {f b : JVal} (h : mergeCoerceItem f = some b) :
    ∃ kv q1 q2 q3 q4 conf, f = .obj kv ∧
      pyFloat ((objGet kv "x1").getD (.num 0)) = some q1 ∧
      pyFloat ((objGet kv "y1").getD (.num 0)) = some q2 ∧
      pyFloat ((objGet kv "x2").getD (.num 0)) = some q3 ∧
      pyFloat ((objGet kv "y2").getD (.num 0)) = some q4 ∧
      pyFloat ((objGet kv "confidence").getD ((objGet kv "score").getD (.num 0))) = some conf ∧
      b = .obj [("x1", .num (pyRound q1 : ℚ)), ("y1", .num (pyRound q2 : ℚ)),
        ("x2", .num (pyRound q3 : ℚ)), ("y2", .num (pyRound q4 : ℚ)),
        ("type", .str (pyLower (pyStr ((objGet kv "type").getD (.str "unknown"))))),
        ("room", .str (pyLower (pyStr ((objGet kv "room").getD (.str "unknown"))))),
        ("confidence", .num conf)] := by
  cases f with
  | obj kv =>
      simp only [mergeCoerceItem] at h
      cases h1 : pyFloat ((objGet kv "x1").getD (.num 0)) with
      | none => rw [h1] at h; exact absurd h (by simp)
      | some q1 =>
          cases h2 : pyFloat ((objGet kv "y1").getD (.num 0)) with
          | none => rw [h1, h2] at h; exact absurd h (by simp)
          | some q2 =>
              cases h3 : pyFloat ((objGet kv "x2").getD (.num 0)) with
              | none => rw [h1, h2, h3] at h; exact absurd h (by simp)
              | some q3 =>
                  cases h4 : pyFloat ((objGet kv "y2").getD (.num 0)) with
                  | none => rw [h1, h2, h3, h4] at h; exact absurd h (by simp)
                  | some q4 =>
                      cases h5 : pyFloat ((objGet kv "confidence").getD
                          ((objGet kv "score").getD (.num 0))) with
                      | none => rw [h1, h2, h3, h4, h5] at h; exact absurd h (by simp)
                      | some conf =>
                          rw [h1, h2, h3, h4, h5] at h
                          simp only [Option.some_inj] at h
                          exact ⟨kv, q1, q2, q3, q4, conf, rfl, h1, h2, h3, h4, h5, h.symm⟩
  | null => exact absurd h (by simp [mergeCoerceItem])
  | bool b2 => exact absurd h (by simp [mergeCoerceItem])
  | num q => exact absurd h (by simp [mergeCoerceItem])
  | str s => exact absurd h (by simp [mergeCoerceItem])
  | arr l => exact absurd h (by simp [mergeCoerceItem])

theorem mapOptM_mem {f : α → Option β} {l : List α} {out : List β}
    (h : mapOptM f l = some out) : ∀ b ∈ out, ∃ a ∈ l, f a = some b := by
  induction l generalizing out with
  | nil =>
      simp [mapOptM] at h
      subst h; simp
  | cons a as ih =>
      unfold mapOptM at h
      cases hfa : f a with
      | none => simp [hfa] at h
      | some b0 =>
          rw [hfa] at h
          cases hrest : mapOptM f as with
          | none => rw [hrest] at h; exact absurd h (by simp)
          | some bs =>
              rw [hrest] at h
              simp only [Option.some_inj] at h
              subst h
              intro b hb
              rcases List.mem_cons.mp hb with hb | hb
              · exact ⟨a, by simp, by rw [hfa, hb]⟩
              · obtain ⟨a2, ha2, hfa2⟩ := ih hrest b hb
                exact ⟨a2, by simp [ha2], hfa2⟩

theorem mapMaybeM_isSome {f : α → Option (Option β)} {l : List α}
    (h : ∀ a ∈ l, (f a).isSome) : ∃ out, mapMaybeM f l = some out := by
  induction l with
  | nil => exact ⟨[], rfl⟩
  | cons a as ih =>
      obtain ⟨ob, hob⟩ := Option.isSome_iff_exists.mp (h a (by simp))
      obtain ⟨bs, hbs⟩ := ih (fun a2 ha2 => h a2 (by simp [ha2]))
      cases ob with
      | none => exact ⟨bs, by unfold mapMaybeM; rw [hob, hbs]⟩
      | some b => exact ⟨b :: bs, by unfold mapMaybeM; rw [hob, hbs]⟩

/-- Every item produced by the merge-loop coercion can be
sanitized without an exception (its confidence is already a float). -/
theorem sanitizeItem_isSome_of_coerced {f b : JVal} {W H : ℤ}
    (h : mergeCoerceItem f = some b) : (sanitizeItem b W H).isSome := by
  obtain ⟨kv, q1, q2, q3, q4, conf, _, _, _, _, _, _, hb⟩ := mergeCoerceItem_some h
  subst hb
  simp only [sanitizeItem]
  cases sanitizeCoords [("x1", .num (pyRound q1 : ℚ)), ("y1", .num (pyRound q2 : ℚ)),
      ("x2", .num (pyRound q3 : ℚ)), ("y2", .num (pyRound q4 : ℚ)),
      ("type", .str (pyLower (pyStr ((objGet kv "type").getD (.str "unknown"))))),
      ("room", .str (pyLower (pyStr ((objGet kv "room").getD (.str "unknown"))))),
      ("confidence", .num conf)] W H with
  | none => rfl
  | some c4 =>
      obtain ⟨x1, y1, x2, y2⟩ := c4
      have hgc : objGet [("x1", JVal.num (pyRound q1 : ℚ)), ("y1", .num (pyRound q2 : ℚ)),
          ("x2", .num (pyRound q3 : ℚ)), ("y2", .num (pyRound q4 : ℚ)),
          ("type", .str (pyLower (pyStr ((objGet kv "type").getD (.str "unknown"))))),
          ("room", .str (pyLower (pyStr ((objGet kv "room").getD (.str "unknown"))))),
          ("confidence", .num conf)] "confidence" = some (.num conf) := rfl
      simp [hgc, pyFloat]

/-! Remaining getter lemmas for the enriched document. -/

theorem objGet_buildEnriched_points (kvs : Assoc) (W H : ℤ) (fixed : List JVal) :
    objGet (buildEnriched kvs W H fixed) "points" =
      some ((objGet kvs "points").getD (.arr [])) := by
  unfold buildEnriched
  rw [objGet_dictSet_ne _ _ _ _ (by decide), objGet_dictSetdefault_ne _ _ _ _ (by decide),
    objGet_dictSetdefault_ne _ _ _ _ (by decide), objGet_dictSetdefault_self,
    objGet_dictSet_ne _ _ _ _ (by decide), objGet_dictSet_ne _ _ _ _ (by decide)]
  cases objGet kvs "points" <;> rfl

theorem objGet_buildEnriched_classes (kvs : Assoc) (W H : ℤ) (fixed : List JVal) :
    objGet (buildEnriched kvs W H fixed) "classes" =
      some ((objGet kvs "classes").getD (.arr [])) := by
  unfold buildEnriched
  rw [objGet_dictSet_ne _ _ _ _ (by decide), objGet_dictSetdefault_ne _ _ _ _ (by decide),
    objGet_dictSetdefault_self, objGet_dictSetdefault_ne _ _ _ _ (by decide),
    objGet_dictSet_ne _ _ _ _ (by decide), objGet_dictSet_ne _ _ _ _ (by decide)]
  cases objGet kvs "classes" <;> rfl

theorem objGet_buildEnriched_averageDoor (kvs : Assoc) (W H : ℤ) (fixed : List JVal) :
    objGet (buildEnriched kvs W H fixed) "averageDoor" =
      some ((objGet kvs "averageDoor").getD (.num 0)) := by
  unfold buildEnriched
  rw [objGet_dictSet_ne _ _ _ _ (by decide), objGet_dictSetdefault_self,
    objGet_dictSetdefault_ne _ _ _ _ (by decide), objGet_dictSetdefault_ne _ _ _ _ (by decide),
    objGet_dictSet_ne _ _ _ _ (by decide), objGet_dictSet_ne _ _ _ _ (by decide)]
  cases objGet kvs "averageDoor" <;> rfl

theorem objGet_buildEnriched_other (kvs : Assoc) (W H : ℤ) (fixed : List JVal)
    (k : String) (h1 : k ≠ "Width") (h2 : k ≠ "Height") (h3 : k ≠ "points")
    (h4 : k ≠ "classes") (h5 : k ≠ "averageDoor") (h6 : k ≠ "furniture") :
    objGet (buildEnriched kvs W H fixed) k = objGet kvs k := by
  unfold buildEnriched
  rw [objGet_dictSet_ne _ _ _ _ (Ne.symm h6), objGet_dictSetdefault_ne _ _ _ _ (Ne.symm h5),
    objGet_dictSetdefault_ne _ _ _ _ (Ne.symm h4), objGet_dictSetdefault_ne _ _ _ _ (Ne.symm h3),
    objGet_dictSet_ne _ _ _ _ (Ne.symm h2), objGet_dictSet_ne _ _ _ _ (Ne.symm h1)]

/-- Top-level getters of a merged document in terms of the pipeline
stages. -/
theorem merged_gets (kvs : Assoc) (W H : ℤ) (fixed out : List JVal) :
    objGet (dictSetdefault (dictSet (buildEnriched kvs W H fixed) "furniture" (.arr out))
        "schema_version" (.str "furnish.v1")) "Width" = some (.num W) ∧
    objGet (dictSetdefault (dictSet (buildEnriched kvs W H fixed) "furniture" (.arr out))
        "schema_version" (.str "furnish.v1")) "Height" = some (.num H) ∧
    objGet (dictSetdefault (dictSet (buildEnriched kvs W H fixed) "furniture" (.arr out))
        "schema_version" (.str "furnish.v1")) "furniture" = some (.arr out) := by
  refine ⟨?_, ?_, ?_⟩
  · rw [objGet_dictSetdefault_ne _ _ _ _ (by decide), objGet_dictSet_ne _ _ _ _ (by decide),
      objGet_buildEnriched_Width]
  · rw [objGet_dictSetdefault_ne _ _ _ _ (by decide), objGet_dictSet_ne _ _ _ _ (by decide),
      objGet_buildEnriched_Height]
  · rw [objGet_dictSetdefault_ne _ _ _ _ (by decide), objGet_dictSet_self]

/-! Claim theorems. -/

/-- C2 (code evaluation at the failing input): on the double-encoded
reply text `"{\"a\": 1}"` — a JSON string literal whose content is
itself JSON — `clean_and_load` does NOT return the parsed inner
document: the first parse attempt succeeds on the string literal and
the bare inner text is returned as a string, while directly parsing
the inner JSON yields the object, a different value.  The
double-decode fallback re-parses the same text and is unreachable. -/
theorem C2_double_encoded_returns_string :
    clean_and_load "\"\x7b\\\"a\\\": 1\x7d\"" = .ok (.str "\x7b\"a\": 1\x7d") ∧
    json_loads "\x7b\"a\": 1\x7d" = some (.obj [("a", .num 1)]) ∧
    JVal.str "\x7b\"a\": 1\x7d" ≠ JVal.obj [("a", .num 1)] :=
  ⟨rfl, rfl, fun h => JVal.noConfusion h⟩

/-- C3 (counterexample): the claim says `merge_with_baseline` raises
no exception for any furniture-item mapping including non-numeric
coordinate values; but an item whose `x1` is the non-numeric string
"abc" makes the bare `float(...)` coercion on line 189 raise, so no
document is returned (modelled as `none`). -/
theorem C3_counterexample :
    merge_with_baseline "\x7b\x7d" [.obj [("x1", .str "abc")]] (10, 10) = none := rfl

/-- Box-sanitizer algorithm exactly as claim C4 words it: each of the
four coordinates is independently parsed as a number (substituting
the lower bound 0 on parse failure), rounded to nearest integer, and
clamped into [0, dimension−1]; then, only if x2 ≤ x1 or y2 ≤ y1 after
clamping, the two x's and the two y's are reordered to (min,max) in a
single repair pass; a box still degenerate after reordering is
rejected.  This definition follows the claim's wording, to be
compared with the source embedding `sanitizeCoords`. -/
def sanitizeCoordsSpec (kv : Assoc) (W H : ℤ) : Option (ℤ × ℤ × ℤ × ℤ) :=
  let parseRound : JVal → ℤ := fun v =>
    match pyFloat v with
    | some q => pyRound q
    | none => 0
  let clampTo : ℤ → ℤ → ℤ := fun n dim => max 0 (min (dim - 1) n)
  let x1 := clampTo (parseRound ((objGet kv "x1").getD (.num 0))) W
  let y1 := clampTo (parseRound ((objGet kv "y1").getD (.num 0))) H
  let x2 := clampTo (parseRound ((objGet kv "x2").getD (.num 0))) W
  let y2 := clampTo (parseRound ((objGet kv "y2").getD (.num 0))) H
  let c := if x2 ≤ x1 ∨ y2 ≤ y1 then
      (min x1 x2, min y1 y2, max x1 x2, max y1 y2)
    else (x1, y1, x2, y2)
  if c.2.2.1 ≤ c.1 ∨ c.2.2.2 ≤ c.2.1 then none else some c

/-- C4: for positive image dimensions the source box sanitizer
processes each box exactly in the order the claim describes
(parse-with-0-default, round, clamp into [0, dim−1], one conditional
reorder pass, reject still-degenerate boxes): the code embedding
coincides with the claim-worded algorithm `sanitizeCoordsSpec` on
every input box. -/
theorem C4_sanitizer_order (kv : Assoc) (W H : ℤ) (hW : 1 ≤ W) (hH : 1 ≤ H) :
    sanitizeCoords kv W H = sanitizeCoordsSpec kv W H := by
  have eW : max 0 (W - 1) = W - 1 := max_eq_right (by omega)
  have eH : max 0 (H - 1) = H - 1 := max_eq_right (by omega)
  simp only [sanitizeCoords, sanitizeCoordsSpec, clamp_int, eW, eH]

/-- Witness for C4: at the claim's example (a zero-width box with
x1 = x2 = 30 against a 100×50 image) the hypotheses hold, the code
agrees with the claim's algorithm, and the box is rejected. -/
theorem C4_sanitizer_order_witness :
    sanitizeCoords [("x1", .num 30), ("x2", .num 30), ("y1", .num 0), ("y2", .num 40)] 100 50 =
      sanitizeCoordsSpec [("x1", .num 30), ("x2", .num 30), ("y1", .num 0), ("y2", .num 40)] 100 50 ∧
    sanitizeCoords [("x1", .num 30), ("x2", .num 30), ("y1", .num 0), ("y2", .num 40)] 100 50 =
      none :=
  ⟨C4_sanitizer_order _ 100 50 (by norm_num) (by norm_num), rfl⟩

/-- C5 (counterexample): the claim says confidence coercion failure
defaults to 0.0; but an item with the non-numeric confidence "abc"
makes the bare `float(...)` on line 195 raise, so the merge returns
no document at all (modelled as `none`) instead of an item with
confidence 0.0. -/
theorem C5_counterexample :
    merge_with_baseline "\x7b\x7d"
      [.obj [("x1", .num 1), ("y1", .num 1), ("x2", .num 5), ("y2", .num 5),
        ("type", .str "sofa"), ("confidence", .str "abc")]] (10, 10) = none := rfl

/-- C6: a baseline text that fails to parse is treated as the empty
object (fail-open), Width/Height resolve to the baseline's coerced
values unless either is zero, in which case both come from the
fallback dims; and the claim's scenario — malformed baseline
`"{not json"` with no furniture and fallback dims (400,300) — yields
Width=400, Height=300 and an empty furniture array. -/
theorem C6_fail_open_dims :
    (∀ raw furn dims, json_loads raw = none →
      merge_with_baseline raw furn dims = merge_with_baseline "\x7b\x7d" furn dims) ∧
    (∀ kvs dims W H,
      pyInt (pyOr ((objGet kvs "Width").getD .null) (.num 0)) = some W →
      pyInt (pyOr ((objGet kvs "Height").getD .null) (.num 0)) = some H →
      resolveDims kvs dims = some (if W ≠ 0 ∧ H ≠ 0 then (W, H) else dims)) ∧
    merge_with_baseline "\x7bnot json" [] (400, 300) =
      some [("Width", .num 400), ("Height", .num 300), ("points", .arr []),
        ("classes", .arr []), ("averageDoor", .num 0), ("furniture", .arr []),
        ("schema_version", .str "furnish.v1")] := by
  refine ⟨?_, ?_, rfl⟩
  · intro raw furn dims h
    have h1 : origAssoc raw = some [] := by
      unfold origAssoc
      rw [h]
      rfl
    unfold merge_with_baseline
    rw [h1]
    rfl
  · intro kvs dims W H hW hH
    simp only [resolveDims, hW, hH]

/-- Witness for C6: the unparseable baseline "oops" satisfies the
parse-failure hypothesis, and the merge result coincides with a merge
against the empty-object baseline. -/
theorem C6_fail_open_dims_witness :
    json_loads "oops" = none ∧
    merge_with_baseline "oops" [] (1, 1) = merge_with_baseline "\x7b\x7d" [] (1, 1) :=
  ⟨rfl, C6_fail_open_dims.1 "oops" [] (1, 1) rfl⟩

/-- C8 (counterexample): the claim says a label that is not a key of
the synonym table passes through lower-cased unchanged; but the code
also strips surrounding whitespace before the table lookup, so
" couch " — which is not a synonym key — normalizes to "sofa", not to
its lower-casing " couch ". -/
theorem C8_counterexample :
    synGet SYNONYM_MAP " couch " = none ∧
    pyLower " couch " = " couch " ∧
    normalize_label (some " couch ") = "sofa" ∧
    ("sofa" : String) ≠ " couch " :=
  ⟨rfl, rfl, rfl, by decide⟩

/-- Helper: list membership as the boolean `contains` used by the
whitelist test. -/
theorem contains_iff_mem (l : List String) (a : String) :
    l.contains a = true ↔ a ∈ l := List.elem_iff

/-- C8 (amended): the label normalizer maps a recognized synonym
("couch") to the canonical lower-cased term "sofa"; a label whose
stripped lower-casing is not a synonym key passes through stripped
and lower-cased; a label is classified furniture-relevant iff its
lower-casing is a whitelist member or a synonym-table key; and an
empty or null label normalizes to the empty string and is not
furniture. -/
theorem C8_label_normalizer :
    (normalize_label (some "couch") = "sofa" ∧ is_furniture "couch" = true) ∧
    (∀ s, synGet SYNONYM_MAP (pyLower (pyStrip s)) = none →
      normalize_label (some s) = pyLower (pyStrip s)) ∧
    (∀ s, is_furniture s = true ↔
      (pyLower s ∈ FURNITURE_WHITELIST ∨ (synGet SYNONYM_MAP (pyLower s)).isSome = true)) ∧
    (normalize_label none = "" ∧ normalize_label (some "") = "" ∧ is_furniture "" = false) := by
  refine ⟨⟨rfl, rfl⟩, ?_, ?_, rfl, rfl, rfl⟩
  · intro s h
    have hid : (if s = "" then "" else s) = s := by
      split
      · simp_all
      · rfl
    simp only [normalize_label, hid, h, Option.getD_none]
  · intro s
    simp only [is_furniture, Bool.or_eq_true, contains_iff_mem]

/-- Witness for C8: the arbitrary unrecognized label "xyz123"
satisfies the not-a-synonym-key hypothesis and passes through as its
own (stripped) lower-casing. -/
theorem C8_label_normalizer_witness :
    synGet SYNONYM_MAP (pyLower (pyStrip "xyz123")) = none ∧
    normalize_label (some "xyz123") = pyLower (pyStrip "xyz123") ∧
    pyLower (pyStrip "xyz123") = "xyz123" :=
  ⟨rfl, C8_label_normalizer.2.1 "xyz123" rfl, rfl⟩

/-- C10: whenever the merged document's resolved Width is at most 1
or its resolved Height is at most 1, its furniture array is empty:
both clamp bounds collapse to the single value 0, so every box is
degenerate after the repair pass and is dropped. -/
theorem C10_small_dims_empty (raw : String) (furn : List JVal) (dims : ℤ × ℤ)
    (d : Assoc) (out : List JVal) (Wq Hq : ℚ)
    (hm : merge_with_baseline raw furn dims = some d)
    (hW : objGet d "Width" = some (.num Wq))
    (hH : objGet d "Height" = some (.num Hq))
    (hsmall : Wq ≤ 1 ∨ Hq ≤ 1)
    (hF : objGet d "furniture" = some (.arr out)) : out = [] := by
  obtain ⟨kvs, W, H, fixed, out0, hkvs, hdims, hfix, hout, hd⟩ := merge_inv hm
  subst hd
  obtain ⟨gW, gH, gF⟩ := merged_gets kvs W H fixed out0
  have eW : (W : ℚ) = Wq := by
    have := gW.symm.trans hW
    simpa using this
  have eH : (H : ℚ) = Hq := by
    have := gH.symm.trans hH
    simpa using this
  have eout : out0 = out := by
    have := gF.symm.trans hF
    simpa using this
  subst eout
  rw [List.eq_nil_iff_forall_not_mem]
  intro v hv
  obtain ⟨a, _, ha⟩ := mapMaybeM_mem hout v hv
  obtain ⟨x1, y1, x2, y2, t, r, c, _, h1, h2, h3, h4, h5, h6, _, _⟩ := sanitizeItem_out ha
  rcases hsmall with hs | hs
  · have hWle : W ≤ 1 := by
      rw [← eW] at hs
      exact_mod_cast hs
    have : max 0 (W - 1) = 0 := max_eq_left (by omega)
    omega
  · have hHle : H ≤ 1 := by
      rw [← eH] at hs
      exact_mod_cast hs
    have : max 0 (H - 1) = 0 := max_eq_left (by omega)
    omega

/-- Witness for C10: merging a valid box against an empty baseline
with fallback dims (0,0) satisfies every hypothesis, and the
furniture array of the result is indeed empty. -/
theorem C10_small_dims_empty_witness :
    merge_with_baseline "\x7b\x7d"
        [.obj [("x1", .num 1), ("y1", .num 1), ("x2", .num 5), ("y2", .num 5)]] (0, 0) =
      some [("Width", .num 0), ("Height", .num 0), ("points", .arr []), ("classes", .arr []),
        ("averageDoor", .num 0), ("furniture", .arr []),
        ("schema_version", .str "furnish.v1")] ∧
    ([] : List JVal) = [] :=
  ⟨rfl, C10_small_dims_empty "\x7b\x7d"
    [.obj [("x1", .num 1), ("y1", .num 1), ("x2", .num 5), ("y2", .num 5)]] (0, 0)
    [("Width", .num 0), ("Height", .num 0), ("points", .arr []), ("classes", .arr []),
      ("averageDoor", .num 0), ("furniture", .arr []),
      ("schema_version", .str "furnish.v1")] [] 0 0 rfl rfl rfl (Or.inl (by norm_num)) rfl⟩

/-- Baseline text of the C1 scenario. -/
def c1Raw : String := "\x7b\"Width\":100,\"Height\":50,\"points\":[],\"classes\":[]\x7d"

/-- Input furniture item of the C1 scenario. -/
def c1Item : JVal := .obj [("x1", .num (-5)), ("y1", .num 10), ("x2", .num 200),
  ("y2", .num 40), ("type", .str "Sofa"), ("confidence", .num (Rat.divInt 9 10))]

/-- Output furniture entry of the C1 scenario. -/
def c1Out : JVal := .obj [("x1", .num 0), ("y1", .num 10), ("x2", .num 99),
  ("y2", .num 40), ("type", .str "sofa"), ("room", .str "unknown"),
  ("confidence", .num (Rat.divInt 9 10))]

/-- Merged document of the C1 scenario. -/
def c1Doc : Assoc := [("Width", .num 100), ("Height", .num 50), ("points", .arr []),
  ("classes", .arr []), ("averageDoor", .num 0), ("furniture", .arr [c1Out]),
  ("schema_version", .str "furnish.v1")]

/-- C1: in every document returned by the merger, every element of
the furniture array satisfies 0 ≤ x1 < x2 ≤ Width and
0 ≤ y1 < y2 ≤ Height (boxes violating this after clamping are
dropped, never emitted); and the claim's scenario — baseline
Width=100, Height=50 with item x1=-5, y1=10, x2=200, y2=40,
type "Sofa", confidence 0.9 — yields exactly one furniture entry with
x1=0, x2=99, y1=10, y2=40, type "sofa", room "unknown". -/
theorem C1_furniture_invariant :
    (∀ raw furn dims d out Wq Hq, merge_with_baseline raw furn dims = some d →
      objGet d "furniture" = some (.arr out) →
      objGet d "Width" = some (.num Wq) →
      objGet d "Height" = some (.num Hq) →
      ∀ v ∈ out, ∃ x1 y1 x2 y2 : ℤ,
        objGetV v "x1" = some (.num (x1 : ℚ)) ∧
        objGetV v "y1" = some (.num (y1 : ℚ)) ∧
        objGetV v "x2" = some (.num (x2 : ℚ)) ∧
        objGetV v "y2" = some (.num (y2 : ℚ)) ∧
        0 ≤ x1 ∧ x1 < x2 ∧ (x2 : ℚ) ≤ Wq ∧
        0 ≤ y1 ∧ y1 < y2 ∧ (y2 : ℚ) ≤ Hq) ∧
    merge_with_baseline c1Raw [c1Item] (0, 0) = some c1Doc := by
  constructor
  · intro raw furn dims d out Wq Hq hm hF hW hH v hv
    obtain ⟨kvs, W, H, fixed, out0, hkvs, hdims, hfix, hout, hd⟩ := merge_inv hm
    subst hd
    obtain ⟨gW, gH, gF⟩ := merged_gets kvs W H fixed out0
    have eW : (W : ℚ) = Wq := by
      have := gW.symm.trans hW
      simpa using this
    have eH : (H : ℚ) = Hq := by
      have := gH.symm.trans hH
      simpa using this
    have eout : out0 = out := by
      have := gF.symm.trans hF
      simpa using this
    subst eout
    obtain ⟨a, _, ha⟩ := mapMaybeM_mem hout v hv
    obtain ⟨x1, y1, x2, y2, t, r, c, hshape, h1, h2, h3, h4, h5, h6, _, _⟩ :=
      sanitizeItem_out ha
    subst hshape
    have hx2W : x2 ≤ W := by
      rcases max_choice 0 (W - 1) with hm2 | hm2 <;> rw [hm2] at h3 <;> omega
    have hy2H : y2 ≤ H := by
      rcases max_choice 0 (H - 1) with hm2 | hm2 <;> rw [hm2] at h6 <;> omega
    refine ⟨x1, y1, x2, y2, rfl, rfl, rfl, rfl, h1, h2, ?_, h4, h5, ?_⟩
    · rw [← eW]
      exact_mod_cast hx2W
    · rw [← eH]
      exact_mod_cast hy2H
  · rfl

/-- Witness for C1: the invariant theorem applied at the claim's
scenario, whose single surviving entry has 0 ≤ 0 < 99 ≤ 100 and
0 ≤ 10 < 40 ≤ 50. -/
theorem C1_furniture_invariant_witness :
    ∃ x1 y1 x2 y2 : ℤ,
      objGetV c1Out "x1" = some (.num (x1 : ℚ)) ∧
      objGetV c1Out "y1" = some (.num (y1 : ℚ)) ∧
      objGetV c1Out "x2" = some (.num (x2 : ℚ)) ∧
      objGetV c1Out "y2" = some (.num (y2 : ℚ)) ∧
      0 ≤ x1 ∧ x1 < x2 ∧ (x2 : ℚ) ≤ 100 ∧
      0 ≤ y1 ∧ y1 < y2 ∧ (y2 : ℚ) ≤ 50 :=
  C1_furniture_invariant.1 c1Raw [c1Item] (0, 0) c1Doc [c1Out] 100 50 rfl rfl rfl rfl
    c1Out (List.mem_singleton.mpr rfl)

/-- C7: merging is idempotent on the furniture list: feeding the
furniture array of an already-merged document back through the merger
with the same baseline text and fallback dims yields a furniture
array identical to it — no item changes and no item is dropped. -/
theorem C7_merge_idempotent (raw : String) (furn : List JVal) (dims : ℤ × ℤ)
    (d : Assoc) (out : List JVal)
    (hm : merge_with_baseline raw furn dims = some d)
    (hF : objGet d "furniture" = some (.arr out)) :
    ∃ d2, merge_with_baseline raw out dims = some d2 ∧
      objGet d2 "furniture" = some (.arr out) := by
  obtain ⟨kvs, W, H, fixed, out0, hkvs, hdims, hfix, hout, hd⟩ := merge_inv hm
  subst hd
  obtain ⟨gW, gH, gF⟩ := merged_gets kvs W H fixed out0
  have eout : out = out0 := by
    have := gF.symm.trans hF
    simpa using this.symm
  subst eout
  have hgood : ∀ v ∈ out, IsOutItem W H v := by
    intro v hv
    obtain ⟨a, _, ha⟩ := mapMaybeM_mem hout v hv
    exact sanitizeItem_out ha
  have hfix2 : mapOptM mergeCoerceItem out = some out :=
    mapOptM_id (fun b hb => mergeCoerceItem_id (hgood b hb))
  have hout2 : mapMaybeM (fun it => sanitizeItem it W H) out = some out :=
    mapMaybeM_id (fun b hb => sanitizeItem_id (hgood b hb))
  exact ⟨_, merge_eq_some hkvs hdims hfix2 hout2, (merged_gets kvs W H out out).2.2⟩

/-- Output item of the C7 witness merge. -/
def c7Out : JVal := .obj [("x1", .num 0), ("y1", .num 0), ("x2", .num 5),
  ("y2", .num 5), ("type", .str "unknown"), ("room", .str "unknown"),
  ("confidence", .num 0)]

/-- Merged document of the C7 witness merge. -/
def c7Doc : Assoc := [("Width", .num 10), ("Height", .num 10), ("points", .arr []),
  ("classes", .arr []), ("averageDoor", .num 0), ("furniture", .arr [c7Out]),
  ("schema_version", .str "furnish.v1")]

/-- Witness for C7: a concrete merge (empty baseline, one box,
fallback dims 10×10) satisfies the hypotheses, and re-merging its
furniture list reproduces it unchanged. -/
theorem C7_merge_idempotent_witness :
    ∃ d2, merge_with_baseline ""
        [c7Out] (10, 10) = some d2 ∧
      objGet d2 "furniture" = some (.arr [c7Out]) :=
  C7_merge_idempotent ""
    [.obj [("x1", .num 0), ("y1", .num 0), ("x2", .num 5), ("y2", .num 5)]]
    (10, 10) c7Doc [c7Out] rfl rfl

/-- Resolution of integer nonzero baseline dimensions. -/
theorem resolveDims_int (kvs : Assoc) (dims : ℤ × ℤ) (wi hg : ℤ)
    (hW : objGet kvs "Width" = some (.num (wi : ℚ)))
    (hH : objGet kvs "Height" = some (.num (hg : ℚ)))
    (hwi : wi ≠ 0) (hhg : hg ≠ 0) :
    resolveDims kvs dims = some (wi, hg) := by
  have hcW : ((wi : ℤ) : ℚ) ≠ 0 := Int.cast_ne_zero.mpr hwi
  have hcH : ((hg : ℤ) : ℚ) ≠ 0 := Int.cast_ne_zero.mpr hhg
  have eOrW : pyOr (.num (wi : ℚ)) (.num 0) = .num (wi : ℚ) := by
    simp [pyOr, pyTruthy, hcW]
  have eOrH : pyOr (.num (hg : ℚ)) (.num 0) = .num (hg : ℚ) := by
    simp [pyOr, pyTruthy, hcH]
  simp only [resolveDims, hW, hH, Option.getD_some, eOrW, eOrH, pyInt, ratTrunc_intCast]
  rw [if_pos ⟨hwi, hhg⟩]

/-- C9 (counterexample): the claim says a baseline object carrying
nonzero Width/Height keeps those fields verbatim in the merged
document; but the int coercion truncates, so the nonzero non-integer
Width 100.5 comes out as 100, a different value. -/
theorem C9_counterexample :
    json_loads "\x7b\"Width\": 100.5, \"Height\": 50\x7d" =
      some (.obj [("Width", .num (Rat.divInt 201 2)), ("Height", .num 50)]) ∧
    merge_with_baseline "\x7b\"Width\": 100.5, \"Height\": 50\x7d" [] (7, 7) =
      some [("Width", .num 100), ("Height", .num 50), ("points", .arr []),
        ("classes", .arr []), ("averageDoor", .num 0), ("furniture", .arr []),
        ("schema_version", .str "furnish.v1")] ∧
    Rat.divInt 201 2 ≠ (100 : ℚ) :=
  ⟨rfl, rfl, by decide⟩

/-- C9 (amended): for every baseline that parses as a JSON object
carrying nonzero integer-valued Width and Height, the merged document
preserves the baseline verbatim: Width, Height keep their original
values, points/classes/averageDoor are copied (with defaults [], [],
0 when absent), schema_version is only stamped when absent, every
other baseline key is passed through untouched, and the only addition
beyond these defaults is the furniture array. -/
theorem C9_baseline_preserved (raw : String) (kvs : Assoc) (furn : List JVal)
    (dims : ℤ × ℤ) (d : Assoc) (wi hg : ℤ)
    (hparse : json_loads raw = some (.obj kvs))
    (hW : objGet kvs "Width" = some (.num (wi : ℚ))) (hwi : wi ≠ 0)
    (hH : objGet kvs "Height" = some (.num (hg : ℚ))) (hhg : hg ≠ 0)
    (hm : merge_with_baseline raw furn dims = some d) :
    objGet d "Width" = objGet kvs "Width" ∧
    objGet d "Height" = objGet kvs "Height" ∧
    objGet d "points" = some ((objGet kvs "points").getD (.arr [])) ∧
    objGet d "classes" = some ((objGet kvs "classes").getD (.arr [])) ∧
    objGet d "averageDoor" = some ((objGet kvs "averageDoor").getD (.num 0)) ∧
    objGet d "schema_version" = some ((objGet kvs "schema_version").getD (.str "furnish.v1")) ∧
    (∃ fl, objGet d "furniture" = some (.arr fl)) ∧
    (∀ k, k ≠ "Width" → k ≠ "Height" → k ≠ "points" → k ≠ "classes" →
      k ≠ "averageDoor" → k ≠ "furniture" → k ≠ "schema_version" →
      objGet d k = objGet kvs k) := by
  obtain ⟨kvs0, W, H, fixed, out, hkvs, hdims, hfix, hout, hd⟩ := merge_inv hm
  have hkvs2 : origAssoc raw = some kvs := by
    unfold origAssoc
    rw [hparse]
    rfl
  have ekvs : kvs = kvs0 := Option.some_inj.mp (hkvs2.symm.trans hkvs)
  subst ekvs
  have hrd := resolveDims_int kvs dims wi hg hW hH hwi hhg
  rw [hdims] at hrd
  have hpair := Option.some_inj.mp hrd
  have eW : W = wi := congrArg Prod.fst hpair
  have eH : H = hg := congrArg Prod.snd hpair
  subst hd
  refine ⟨?_, ?_, ?_, ?_, ?_, ?_, ⟨out, (merged_gets kvs W H fixed out).2.2⟩, ?_⟩
  · rw [(merged_gets kvs W H fixed out).1, eW, hW]
  · rw [(merged_gets kvs W H fixed out).2.1, eH, hH]
  · rw [objGet_dictSetdefault_ne _ _ _ _ (by decide), objGet_dictSet_ne _ _ _ _ (by decide),
      objGet_buildEnriched_points]
  · rw [objGet_dictSetdefault_ne _ _ _ _ (by decide), objGet_dictSet_ne _ _ _ _ (by decide),
      objGet_buildEnriched_classes]
  · rw [objGet_dictSetdefault_ne _ _ _ _ (by decide), objGet_dictSet_ne _ _ _ _ (by decide),
      objGet_buildEnriched_averageDoor]
  · rw [objGet_dictSetdefault_self, objGet_dictSet_ne _ _ _ _ (by decide),
      objGet_buildEnriched_other kvs _ _ _ _ (by decide) (by decide) (by decide) (by decide)
        (by decide) (by decide)]
  · intro k h1 h2 h3 h4 h5 h6 h7
    rw [objGet_dictSetdefault_ne _ _ _ _ (Ne.symm h7), objGet_dictSet_ne _ _ _ _ (Ne.symm h6),
      objGet_buildEnriched_other kvs _ _ _ k h1 h2 h3 h4 h5 h6]

/-- Baseline dict of the C9 witness. -/
def c9wKvs : Assoc := [("Width", .num 4), ("Height", .num 3), ("extra", .bool true)]

/-- Merged document of the C9 witness. -/
def c9wDoc : Assoc := [("Width", .num 4), ("Height", .num 3), ("extra", .bool true),
  ("points", .arr []), ("classes", .arr []), ("averageDoor", .num 0),
  ("furniture", .arr []), ("schema_version", .str "furnish.v1")]

/-- Witness for C9: a baseline with integer Width=4, Height=3 and an
extra caller field is preserved verbatim by the merger; in particular
Width and the unrecognized key "extra" pass through untouched. -/
theorem C9_baseline_preserved_witness :
    objGet c9wDoc "Width" = objGet c9wKvs "Width" ∧
    objGet c9wDoc "extra" = objGet c9wKvs "extra" :=
  ⟨(C9_baseline_preserved "\x7b\"Width\": 4, \"Height\": 3, \"extra\": true\x7d" c9wKvs []
      (7, 7) c9wDoc 4 3 rfl rfl (by decide) rfl (by decide) rfl).1,
   (C9_baseline_preserved "\x7b\"Width\": 4, \"Height\": 3, \"extra\": true\x7d" c9wKvs []
      (7, 7) c9wDoc 4 3 rfl rfl (by decide) rfl (by decide) rfl).2.2.2.2.2.2.2 "extra"
      (by decide) (by decide) (by decide) (by decide) (by decide) (by decide) (by decide)⟩

/-- Coercibility of one furniture item: its coordinate fields and its
confidence (with score fallback) are absent or float-coercible, so
the merge-loop coercion cannot raise on it. -/
def itemOk (f : JVal) : Bool :=
  match f with
  | .obj kv =>
      (pyFloat ((objGet kv "x1").getD (.num 0))).isSome &&
      (pyFloat ((objGet kv "y1").getD (.num 0))).isSome &&
      (pyFloat ((objGet kv "x2").getD (.num 0))).isSome &&
      (pyFloat ((objGet kv "y2").getD (.num 0))).isSome &&
      (pyFloat ((objGet kv "confidence").getD ((objGet kv "score").getD (.num 0)))).isSome
  | _ => false

/-- Benignness of a baseline text: it fails to parse, or parses to an
object whose Width/Height are absent, falsy, or int-coercible, so the
dimension resolution cannot raise. -/
def baseOk (raw : String) : Bool :=
  match json_loads raw with
  | none => true
  | some (.obj kvs) =>
      (pyInt (pyOr ((objGet kvs "Width").getD .null) (.num 0))).isSome &&
      (pyInt (pyOr ((objGet kvs "Height").getD .null) (.num 0))).isSome
  | some _ => false

/-- C3 (amended): the merger returns a document and raises no
exception provided the baseline is benign (`baseOk`: unparseable, or
an object with absent/falsy/int-coercible Width and Height) and every
furniture item's coordinate and confidence fields are absent or
float-coercible (`itemOk`); outside these conditions the bare
`float`/`int` coercions in `merge_with_baseline` can raise (see the
counterexample). -/
theorem C3_merge_total (raw : String) (furn : List JVal) (dims : ℤ × ℤ)
    (hb : baseOk raw = true) (hf : ∀ f ∈ furn, itemOk f = true) :
    ∃ d, merge_with_baseline raw furn dims = some d := by
  have hstage : ∃ kvs W H, origAssoc raw = some kvs ∧ resolveDims kvs dims = some (W, H) := by
    unfold baseOk at hb
    cases hp : json_loads raw with
    | none =>
        refine ⟨[], dims.1, dims.2, ?_, ?_⟩
        · unfold origAssoc
          rw [hp]
          rfl
        · rfl
    | some v =>
        rw [hp] at hb
        cases v with
        | obj kvs =>
            simp only [Bool.and_eq_true, Option.isSome_iff_exists] at hb
            obtain ⟨⟨W0, hW0⟩, H0, hH0⟩ := hb
            have hor : origAssoc raw = some kvs := by
              unfold origAssoc
              rw [hp]
              rfl
            by_cases hc : W0 ≠ 0 ∧ H0 ≠ 0
            · refine ⟨kvs, W0, H0, hor, ?_⟩
              simp only [resolveDims, hW0, hH0]
              rw [if_pos hc]
            · refine ⟨kvs, dims.1, dims.2, hor, ?_⟩
              simp only [resolveDims, hW0, hH0]
              rw [if_neg hc]
        | null => exact absurd hb (by simp)
        | bool b => exact absurd hb (by simp)
        | num q => exact absurd hb (by simp)
        | str s => exact absurd hb (by simp)
        | arr l => exact absurd hb (by simp)
  obtain ⟨kvs, W, H, hkvs, hdims⟩ := hstage
  have hfixE : ∃ fixed, mapOptM mergeCoerceItem furn = some fixed := by
    apply mapOptM_isSome
    intro f hfm
    have hok := hf f hfm
    cases f with
    | obj kv =>
        simp only [itemOk, Bool.and_eq_true, Option.isSome_iff_exists] at hok
        obtain ⟨⟨⟨⟨⟨q1, h1⟩, q2, h2⟩, q3, h3⟩, q4, h4⟩, c5, h5⟩ := hok
        simp [mergeCoerceItem, h1, h2, h3, h4, h5]
    | null => exact absurd hok (by simp [itemOk])
    | bool b => exact absurd hok (by simp [itemOk])
    | num q => exact absurd hok (by simp [itemOk])
    | str s => exact absurd hok (by simp [itemOk])
    | arr l => exact absurd hok (by simp [itemOk])
  obtain ⟨fixed, hfix⟩ := hfixE
  have houtE : ∃ out, mapMaybeM (fun it => sanitizeItem it W H) fixed = some out := by
    apply mapMaybeM_isSome
    intro b hbm
    obtain ⟨a, _, ha⟩ := mapOptM_mem hfix b hbm
    exact sanitizeItem_isSome_of_coerced ha
  obtain ⟨out, hout⟩ := houtE
  exact ⟨_, merge_eq_some hkvs hdims hfix hout⟩

/-- Witness for C3: a baseline with a numeric-string Width and an
item whose coordinates are numeric strings and whose confidence is a
boolean satisfy the coercibility hypotheses, and the merge returns a
document. -/
theorem C3_merge_total_witness :
    baseOk "\x7b\"Width\": \"20\", \"Height\": 10\x7d" = true ∧
    itemOk (.obj [("x1", .str " 3 "), ("y1", .num 1), ("x2", .str "7.5"),
      ("y2", .num 6), ("confidence", .bool true)]) = true ∧
    ∃ d, merge_with_baseline "\x7b\"Width\": \"20\", \"Height\": 10\x7d"
      [.obj [("x1", .str " 3 "), ("y1", .num 1), ("x2", .str "7.5"),
        ("y2", .num 6), ("confidence", .bool true)]] (9, 9) = some d :=
  ⟨rfl, rfl,
   C3_merge_total "\x7b\"Width\": \"20\", \"Height\": 10\x7d"
    [.obj [("x1", .str " 3 "), ("y1", .num 1), ("x2", .str "7.5"),
      ("y2", .num 6), ("confidence", .bool true)]] (9, 9) rfl
    (by
      intro f hfm
      rw [List.mem_singleton] at hfm
      subst hfm
      rfl)⟩

/-- C5 (amended): the merge-loop coercion lower-cases `type` and
`room` into strings, defaults a missing `room` (and `type`) to
"unknown", coerces confidence to float with fallback to `score` and
then to 0.0 when both are absent, and never range-clamps the
coerced confidence — it is emitted exactly as coerced; but when the
confidence coercion itself fails the loop raises (returns no item)
instead of defaulting to 0.0 (see the counterexample). -/
theorem C5_field_coercion (kv : Assoc) :
    (∀ conf b,
      pyFloat ((objGet kv "confidence").getD ((objGet kv "score").getD (.num 0))) = some conf →
      mergeCoerceItem (.obj kv) = some b →
      objGetV b "type" = some (.str (pyLower (pyStr ((objGet kv "type").getD (.str "unknown"))))) ∧
      objGetV b "room" = some (.str (pyLower (pyStr ((objGet kv "room").getD (.str "unknown"))))) ∧
      objGetV b "confidence" = some (.num conf)) ∧
    (pyFloat ((objGet kv "confidence").getD ((objGet kv "score").getD (.num 0))) = none →
      mergeCoerceItem (.obj kv) = none) := by
  constructor
  · intro conf b hcf hb
    obtain ⟨kv2, q1, q2, q3, q4, conf2, heq, _, _, _, _, h5, hb2⟩ := mergeCoerceItem_some hb
    have ekv : kv = kv2 := by injection heq
    subst ekv
    rw [hcf] at h5
    have ec : conf = conf2 := Option.some_inj.mp h5
    subst ec
    subst hb2
    exact ⟨rfl, rfl, rfl⟩
  · intro hcf
    cases h1 : pyFloat ((objGet kv "x1").getD (.num 0)) <;>
      cases h2 : pyFloat ((objGet kv "y1").getD (.num 0)) <;>
        cases h3 : pyFloat ((objGet kv "x2").getD (.num 0)) <;>
          cases h4 : pyFloat ((objGet kv "y2").getD (.num 0)) <;>
            simp [mergeCoerceItem, h1, h2, h3, h4, hcf]

/-- Witness for C5: an item with out-of-range confidence 5.0
satisfies the coercion hypothesis and its confidence is emitted as
5.0 — not clamped into [0,1] — while type and room are lower-cased
with room defaulted. -/
theorem C5_field_coercion_witness :
    objGetV (.obj [("x1", .num 1), ("y1", .num 1), ("x2", .num 2), ("y2", .num 2),
        ("type", .str "sofa"), ("room", .str "unknown"), ("confidence", .num 5)])
      "type" = some (.str (pyLower (pyStr ((objGet [("x1", JVal.num 1), ("y1", .num 1),
        ("x2", .num 2), ("y2", .num 2), ("type", .str "Sofa"), ("confidence", .num 5)]
        "type").getD (.str "unknown"))))) ∧
    objGetV (.obj [("x1", .num 1), ("y1", .num 1), ("x2", .num 2), ("y2", .num 2),
        ("type", .str "sofa"), ("room", .str "unknown"), ("confidence", .num 5)])
      "room" = some (.str (pyLower (pyStr ((objGet [("x1", JVal.num 1), ("y1", .num 1),
        ("x2", .num 2), ("y2", .num 2), ("type", .str "Sofa"), ("confidence", .num 5)]
        "room").getD (.str "unknown"))))) ∧
    objGetV (.obj [("x1", .num 1), ("y1", .num 1), ("x2", .num 2), ("y2", .num 2),
        ("type", .str "sofa"), ("room", .str "unknown"), ("confidence", .num 5)])
      "confidence" = some (.num 5) :=
  (C5_field_coercion [("x1", JVal.num 1), ("y1", .num 1), ("x2", .num 2), ("y2", .num 2),
      ("type", .str "Sofa"), ("confidence", .num 5)]).1 5
    (.obj [("x1", .num 1), ("y1", .num 1), ("x2", .num 2), ("y2", .num 2),
      ("type", .str "sofa"), ("room", .str "unknown"), ("confidence", .num 5)]) rfl rfl

end Furnish
